import Mathlib

/-
Verification of the NGR XML → CSV converter (ngr_webapp.py).

The development shallowly embeds the two core functions of the source,
parse_xml (the extractor) and build_outputs / dedup (the normalizer), over
an explicit model of Python dicts (insertion-ordered association lists),
ElementTree elements, and the pandas operations the source uses
(DataFrame construction, drop_duplicates, groupby + agg, column selection).
-/

namespace NGR

/-- A cell value: a string or null (Python None / pandas NaN). -/
abbrev Val := Option String

/-- A raw record: an insertion-ordered mapping from field names to values,
modelling a Python dict built by successive assignments. -/
abbrev Row := List (String × Val)

/-- Python str.strip of leading and trailing whitespace, written over the
character list so that it reduces definitionally. -/
def strip (s : String) : String :=
  ⟨((s.data.dropWhile Char.isWhitespace).reverse.dropWhile Char.isWhitespace).reverse⟩

/-- Python str.upper, written over the character list so that it reduces
definitionally. -/
def upper (s : String) : String := ⟨s.data.map Char.toUpper⟩

/-- Dict lookup: the value stored at key k, when the key is present. -/
def getField : Row → String → Option Val
  | [], _ => none
  | p :: ps, k => if p.1 = k then some p.2 else getField ps k

/-- Dict assignment d[k] = v: replaces the value at an existing key in place,
otherwise appends the new key at the end. -/
def setField : Row → String → Val → Row
  | [], k, v => [(k, v)]
  | p :: ps, k, v => if p.1 = k then (k, v) :: ps else p :: setField ps k v

/-- Whether a key is present in the record. -/
def hasField (r : Row) (k : String) : Bool := (getField r k).isSome

/-- The value of a record at a column of the materialized DataFrame: a key
absent from the record reads as NaN, i.e. null. -/
def cell (r : Row) (k : String) : Val := (getField r k).join

/-- An XML element as exposed by xml.etree.ElementTree: a tag, optional text
content, and the list of child elements in document order. -/
structure Elem where
  tag : String
  text : Option String
  children : List Elem
deriving Repr

/-- Python (elem.text or '').strip(). -/
def textOrEmpty (e : Elem) : String := strip (e.text.getD "")

/-- Helper txt of the source: t = elem.find(tag); t.text.strip() if t is not
None and t.text else None (a missing child, missing text or empty text all
yield null). -/
def txt (e : Elem) (tag : String) : Val :=
  match e.children.find? (fun c => c.tag = tag) with
  | none => none
  | some t =>
    match t.text with
    | none => none
    | some s => if s = "" then none else some (strip s)

/-- One dict-comprehension pass over child elements: every child selected by
q contributes its upper-cased tag mapped to its stripped text (last
duplicate tag wins, as in a Python dict). -/
def setFold (q : Elem → Bool) (init : Row) (cs : List Elem) : Row :=
  cs.foldl (fun r c => if q c then setField r (upper c.tag) (some (textOrEmpty c)) else r) init

/-- Selection used for GRN rows: not the payee subtree, leaf children only. -/
def grnQ (c : Elem) : Bool := (c.tag != "payee") && c.children.isEmpty

/-- Selection used for Payee rows: not the user subtree, leaf children only. -/
def payeeQ (c : Elem) : Bool := (c.tag != "user") && c.children.isEmpty

/-- Selection used for User row plain fields: not a phone child, leaf only. -/
def userQ (c : Elem) : Bool :=
  (c.tag != "PHONE_TYPE") && ((c.tag != "PHONE_NUMBER") && c.children.isEmpty)

/-- The GRN flat row of a partnership element. -/
def grnRowOf (part : Elem) : Row := setFold grnQ [] part.children

/-- The Payee flat row: the inherited GRN foreign key, then the payee's
direct leaf fields. -/
def payeeRowOf (grn_id : Val) (payee : Elem) : Row :=
  setFold payeeQ [("GRN", grn_id)] payee.children

/-- One step of the user-element loop: divert PHONE_TYPE / PHONE_NUMBER
texts into the two accumulator lists, store any other leaf field in the row. -/
def userStep (acc : List String × List String × Row) (c : Elem) :
    List String × List String × Row :=
  if c.tag = "PHONE_TYPE" then (acc.1 ++ [textOrEmpty c], acc.2.1, acc.2.2)
  else if c.tag = "PHONE_NUMBER" then (acc.1, acc.2.1 ++ [textOrEmpty c], acc.2.2)
  else if c.children.isEmpty then
    (acc.1, acc.2.1, setField acc.2.2 (upper c.tag) (some (textOrEmpty c)))
  else acc

/-- Phone aggregate: a semicolon-and-space join when the list is non-empty,
null otherwise. -/
def phoneAgg (l : List String) : Val :=
  if l.isEmpty then none else some (String.intercalate "; " l)

/-- The User flat row: inherited foreign keys, direct leaf fields, and the
two derived phone aggregate fields. -/
def userRowOf (grn_id payee_id : Val) (user : Elem) : Row :=
  let acc := user.children.foldl userStep ([], [], [("GRN", grn_id), ("PAYEE_ID", payee_id)])
  setField (setField acc.2.2 "PHONE_TYPES" (phoneAgg acc.1)) "PHONE_NUMBERS" (phoneAgg acc.2.1)

/-- parse_xml of the source: walk the tree and produce the three raw row
collections (GRN rows, Payee rows, User rows) in document order. -/
def parse_xml (root : Elem) : List Row × List Row × List Row :=
  let parts := root.children.filter (fun c => c.tag = "partnership")
  ( parts.map grnRowOf
  , parts.flatMap (fun part =>
      (part.children.filter (fun c => c.tag = "payee")).map (payeeRowOf (txt part "GRN")))
  , parts.flatMap (fun part =>
      (part.children.filter (fun c => c.tag = "payee")).flatMap (fun payee =>
        (payee.children.filter (fun c => c.tag = "user")).map
          (userRowOf (txt part "GRN") (txt payee "PAYEE_ID")))) )

/-- Column list of pd.DataFrame(rows): keys in order of first appearance. -/
def addCols (acc : List String) (r : Row) : List String :=
  r.foldl (fun cs p => if p.1 ∈ cs then cs else cs ++ [p.1]) acc

/-- Columns contributed by a whole row collection. -/
def dfCols (rows : List Row) : List String := rows.foldl addCols []

/-- A materialized DataFrame: a reconciled column list plus the records; a
record missing one of the columns reads as null there (see cell). -/
structure DF where
  cols : List String
  rows : List Row
deriving Repr, DecidableEq

/-- pd.DataFrame(rows). -/
def mkDF (rows : List Row) : DF := ⟨dfCols rows, rows⟩

/-- The key tuple of a row under a column subset. -/
def keyOf (subset : List String) (r : Row) : List Val :=
  subset.map (fun c => cell r c)

/-- pandas duplicated(): one mark per row, true when an earlier row has an
equal key tuple (nulls compare equal here). -/
def duplicatedMarks (keyf : Row → List Val) (seen : List (List Val)) :
    List Row → List Bool
  | [] => []
  | r :: rs => decide (keyf r ∈ seen) :: duplicatedMarks keyf (keyf r :: seen) rs

/-- Boolean-mask row filter, as df[~mask]. -/
def maskFilter : List Row → List Bool → List Row
  | [], _ => []
  | _ :: _, [] => []
  | r :: rs, b :: bs => if b then maskFilter rs bs else r :: maskFilter rs bs

/-- pandas drop_duplicates over a key function: filter out the rows marked
as duplicates of an earlier row. -/
def dropDupRows (keyf : Row → List Val) (rows : List Row) : List Row :=
  maskFilter rows (duplicatedMarks keyf [] rows)

/-- df.drop_duplicates(subset): raises a KeyError when a subset column is
missing from the frame. -/
def drop_duplicates (df : DF) (subset : List String) : Except String DF :=
  if subset.all (fun c => decide (c ∈ df.cols)) then
    Except.ok ⟨df.cols, dropDupRows (keyOf subset) df.rows⟩
  else Except.error ("KeyError: " ++ String.intercalate ", " subset)

/-- Lexicographic comparison of character lists by code point, as Python
compares strings. -/
def charListLt : List Char → List Char → Bool
  | [], [] => false
  | [], _ :: _ => true
  | _ :: _, [] => false
  | a :: as, b :: bs => if a < b then true else if b < a then false else charListLt as bs

/-- Python string comparison, used by the pandas group-key sort. -/
def strLt (a b : String) : Bool := charListLt a.data b.data

/-- Insertion step for sorting group keys (pandas sorts group keys). -/
def insertStr (x : String) : List String → List String
  | [] => [x]
  | y :: ys => if strLt x y then x :: y :: ys else y :: insertStr x ys

/-- Insertion sort of group keys, ascending. -/
def sortStr : List String → List String
  | [] => []
  | x :: xs => insertStr x (sortStr xs)

/-- Distinct values in order of first appearance. -/
def dedupFirst (seen : List String) : List String → List String
  | [] => []
  | x :: xs => if x ∈ seen then dedupFirst seen xs else x :: dedupFirst (x :: seen) xs

/-- The group keys of df.groupby(key): the distinct non-null values of the
key column, sorted ascending; rows with a null key are not grouped. -/
def groupKeys (key : String) (rows : List Row) : List String :=
  sortStr (dedupFirst [] (rows.filterMap (fun r => cell r key)))

/-- The rows of one group, in their original order. -/
def groupRows (key k : String) (rows : List Row) : List Row :=
  rows.filter (fun r => cell r key = some k)

/-- The agg lambda of the source: col.dropna().iloc[0] if col.notna().any()
else None. -/
def firstNonNull (rows : List Row) (c : String) : Val :=
  ((rows.map (fun r => cell r c)).filterMap id).head?

/-- The merged output row of one group: the key value first, then the
first-non-null aggregate of every other column. -/
def mergeGroup (cols : List String) (key k : String) (rows : List Row) : Row :=
  (key, some k) ::
    (cols.filter (fun c => c ≠ key)).map
      (fun c => (c, firstNonNull (groupRows key k rows) c))

/-- dedup of the source: df.groupby(key, as_index=False) followed by the
first-non-null agg; raises a KeyError when the key column is missing. -/
def dedup (df : DF) (key : String) : Except String DF :=
  if key ∈ df.cols then
    Except.ok ⟨key :: df.cols.filter (fun c => c ≠ key),
      (groupKeys key df.rows).map (fun k => mergeGroup df.cols key k df.rows)⟩
  else Except.error ("KeyError: " ++ key)

/-- df[sub]: projection onto the given columns; raises a KeyError when one
is missing. -/
def selectCols (df : DF) (sub : List String) : Except String DF :=
  if sub.all (fun c => decide (c ∈ df.cols)) then
    Except.ok ⟨sub, df.rows.map (fun r => sub.map (fun c => (c, cell r c)))⟩
  else Except.error ("KeyError: " ++ String.intercalate ", " sub)

/-- df.drop_duplicates() with no subset: deduplicate on all columns. -/
def dropDupAll (df : DF) : DF := ⟨df.cols, dropDupRows (keyOf df.cols) df.rows⟩

/-- build_outputs of the source, with pandas KeyError failures made explicit. -/
def build_outputs (grn_raw payee_raw user_raw : List Row) :
    Except String (DF × DF × DF × DF) := do
  let grn_unique ← drop_duplicates (mkDF grn_raw) ["GRN"]
  let payee_unique ← dedup (mkDF payee_raw) "PAYEE_ID"
  let user_unique ← dedup (mkDF user_raw) "USER_ID"
  let proj ← selectCols (mkDF user_raw) ["GRN", "PAYEE_ID", "USER_ID"]
  pure (grn_unique, payee_unique, user_unique, dropDupAll proj)

/-- The request pipeline around parse_xml: a parse failure is surfaced as a
"Could not parse XML" error and processing stops before any table is built;
otherwise the raw rows are normalized by build_outputs. -/
def processUpload (parsed : Except String Elem) : Except String (DF × DF × DF × DF) :=
  match parsed with
  | Except.error e => Except.error ("Could not parse XML: " ++ e)
  | Except.ok root =>
    let raws := parse_xml root
    build_outputs raws.1 raws.2.1 raws.2.2

/-- Spec-side merge combinator: scan the values in order and take the first
non-null one; the result is null only when every value is null, and an
empty string counts as a present value. -/
def firstPresent : List Val → Val
  | [] => none
  | none :: vs => firstPresent vs
  | some s :: _ => some s

/-- Spec-side stable deduplication: keep a row exactly when its key tuple
was not seen on an earlier row. -/
def keepFirstBy (keyf : Row → List Val) (seen : List (List Val)) : List Row → List Row
  | [] => []
  | r :: rs =>
    if keyf r ∈ seen then keepFirstBy keyf (keyf r :: seen) rs
    else r :: keepFirstBy keyf (keyf r :: seen) rs

/-- The children of an element that write the row field k during a
comprehension with selection q: selected children whose upper-cased tag is
k, in document order. The last one wins in the resulting dict. -/
def contributorsTo (q : Elem → Bool) (k : String) : List Elem → List Elem
  | [] => []
  | c :: cs =>
    if q c && (upper c.tag == k) then c :: contributorsTo q k cs
    else contributorsTo q k cs

/-- The projection of a user record onto the three mapping-table columns. -/
def projectUser (r : Row) : Row :=
  ["GRN", "PAYEE_ID", "USER_ID"].map (fun c => (c, cell r c))

/-- Specification of the field-level merge table for one key column: one
output row per distinct non-null key value occurring in the input, each
output cell being the first non-null value of its column among the rows of
the group, scanned in original order (null only when the whole group is
null there). -/
def MergeSpec (rows : List Row) (key : String) (out : DF) : Prop :=
  (∀ k : String, (∃ r ∈ rows, cell r key = some k) ↔ ∃ r ∈ out.rows, cell r key = some k) ∧
  (∀ k : String, (∃ r ∈ rows, cell r key = some k) →
      out.rows.countP (fun r => decide (cell r key = some k)) = 1) ∧
  (∀ r ∈ out.rows, ∀ c ∈ dfCols rows,
      cell r c =
        firstPresent ((rows.filter (fun x => cell x key = cell r key)).map (fun x => cell x c))) ∧
  (∀ r ∈ out.rows, ∀ c ∈ dfCols rows,
      (cell r c = none ↔ ∀ x ∈ rows, cell x key = cell r key → cell x c = none))

/-! ### Dict lemmas -/

theorem getField_setField_self (r : Row) (k : String) (v : Val) :
    getField (setField r k v) k = some v := by
  induction r with
  | nil => simp [setField, getField]
  | cons p ps ih =>
    by_cases h : p.1 = k
    · simp [setField, h, getField]
    · simp [setField, h, getField, ih]

theorem getField_setField_ne (r : Row) (k k' : String) (v : Val) (h : k' ≠ k) :
    getField (setField r k' v) k = getField r k := by
  induction r with
  | nil => simp [setField, getField, h]
  | cons p ps ih =>
    by_cases hp : p.1 = k'
    · simp [setField, hp, getField, h]
    · simp [setField, hp, getField, ih]

theorem hasField_setField_self (r : Row) (k : String) (v : Val) :
    hasField (setField r k v) k = true := by
  simp [hasField, getField_setField_self]

theorem hasField_setField_mono (r : Row) (k k' : String) (v : Val)
    (h : hasField r k = true) : hasField (setField r k' v) k = true := by
  by_cases hk : k' = k
  · subst hk; simp [hasField, getField_setField_self]
  · simpa [hasField, getField_setField_ne r k k' v hk] using h

/-! ### Comprehension fold lemmas -/

theorem setFold_cons (q : Elem → Bool) (init : Row) (c : Elem) (cs : List Elem) :
    setFold q init (c :: cs) =
      setFold q (if q c then setField init (upper c.tag) (some (textOrEmpty c)) else init) cs :=
  rfl

theorem setFold_getField_of_no_contrib (q : Elem → Bool) (k : String) :
    ∀ (cs : List Elem) (init : Row), contributorsTo q k cs = [] →
      getField (setFold q init cs) k = getField init k := by
  intro cs
  induction cs with
  | nil => intro init _; rfl
  | cons c cs ih =>
    intro init h
    rw [contributorsTo] at h
    by_cases hq : (q c && (upper c.tag == k)) = true
    · rw [if_pos hq] at h; exact absurd h (List.cons_ne_nil _ _)
    · rw [if_neg hq] at h
      rw [setFold_cons]
      by_cases hqc : q c = true
      · have hk : ¬ (upper c.tag = k) := by
          intro hkk; apply hq; simp [hqc, hkk]
        rw [if_pos hqc, ih _ h, getField_setField_ne _ _ _ _ hk]
      · rw [if_neg hqc]; exact ih _ h

theorem setFold_getField_last (q : Elem → Bool) (k : String) :
    ∀ (cs : List Elem) (init : Row) (pre : List Elem) (c : Elem),
      contributorsTo q k cs = pre ++ [c] →
      getField (setFold q init cs) k = some (some (textOrEmpty c)) := by
  intro cs
  induction cs with
  | nil =>
    intro init pre c h
    rw [contributorsTo] at h
    exact absurd h.symm (by simp)
  | cons d cs ih =>
    intro init pre c h
    rw [contributorsTo] at h
    rw [setFold_cons]
    by_cases hq : (q d && (upper d.tag == k)) = true
    · rw [if_pos hq] at h
      obtain ⟨hqd, hkd⟩ : q d = true ∧ upper d.tag = k := by simpa using hq
      rcases List.eq_nil_or_concat (contributorsTo q k cs) with hnil | ⟨L, b, hLb⟩
      · rw [hnil] at h
        have hc : c = d := by
          have h1 := congrArg List.getLast? h
          rw [List.getLast?_concat] at h1
          simpa using h1.symm
        rw [if_pos hqd]
        rw [setFold_getField_of_no_contrib q k cs _ hnil]
        rw [hc, ← hkd, getField_setField_self]
      · rw [List.concat_eq_append] at hLb
        have hbc : b = c := by
          rw [hLb] at h
          have h1 := congrArg List.getLast? h
          rw [List.getLast?_concat] at h1
          rw [show d :: (L ++ [b]) = (d :: L) ++ [b] from rfl, List.getLast?_concat] at h1
          simpa using h1
        rw [if_pos hqd, ih _ L b hLb, hbc]
    · rw [if_neg hq] at h
      by_cases hqd : q d = true
      · rw [if_pos hqd]; exact ih _ pre c h
      · rw [if_neg hqd]; exact ih _ pre c h

theorem setFold_hasField_mono (q : Elem → Bool) (k : String) :
    ∀ (cs : List Elem) (init : Row), hasField init k = true →
      hasField (setFold q init cs) k = true := by
  intro cs
  induction cs with
  | nil => intro init h; exact h
  | cons c cs ih =>
    intro init h
    rw [setFold_cons]
    by_cases hq : q c = true
    · rw [if_pos hq]; exact ih _ (hasField_setField_mono _ _ _ _ h)
    · rw [if_neg hq]; exact ih _ h

/-! ### User-loop decomposition -/

theorem userFold_row :
    ∀ (cs : List Elem) (ts ns : List String) (r : Row),
      (cs.foldl userStep (ts, ns, r)).2.2 = setFold userQ r cs := by
  intro cs
  induction cs with
  | nil => intro ts ns r; rfl
  | cons c cs ih =>
    intro ts ns r
    rw [List.foldl_cons, setFold_cons]
    by_cases h1 : c.tag = "PHONE_TYPE"
    · have hq : userQ c = false := by simp [userQ, h1]
      rw [show userStep (ts, ns, r) c = (ts ++ [textOrEmpty c], ns, r) by
        simp [userStep, h1]]
      rw [ih, hq]
      simp
    · by_cases h2 : c.tag = "PHONE_NUMBER"
      · have hq : userQ c = false := by simp [userQ, h2]
        rw [show userStep (ts, ns, r) c = (ts, ns ++ [textOrEmpty c], r) by
          simp [userStep, h1, h2]]
        rw [ih, hq]
        simp
      · by_cases h3 : c.children.isEmpty = true
        · have hq : userQ c = true := by simp [userQ, h1, h2, h3]
          rw [show userStep (ts, ns, r) c =
              (ts, ns, setField r (upper c.tag) (some (textOrEmpty c))) by
            simp [userStep, h1, h2, h3]]
          rw [ih, hq]
          simp
        · have hq : userQ c = false := by simp [userQ, h1, h2, h3]
          rw [show userStep (ts, ns, r) c = (ts, ns, r) by
            simp [userStep, h1, h2, h3]]
          rw [ih, hq]
          simp

theorem userFold_types :
    ∀ (cs : List Elem) (ts ns : List String) (r : Row),
      (cs.foldl userStep (ts, ns, r)).1 =
        ts ++ (cs.filter (fun c => c.tag == "PHONE_TYPE")).map textOrEmpty := by
  intro cs
  induction cs with
  | nil => intro ts ns r; simp
  | cons c cs ih =>
    intro ts ns r
    rw [List.foldl_cons, List.filter_cons]
    by_cases h1 : c.tag = "PHONE_TYPE"
    · rw [show userStep (ts, ns, r) c = (ts ++ [textOrEmpty c], ns, r) by
        simp [userStep, h1]]
      rw [ih]
      simp [h1]
    · have hb : (c.tag == "PHONE_TYPE") = false := by
        simpa using h1
      rw [hb]
      by_cases h2 : c.tag = "PHONE_NUMBER"
      · rw [show userStep (ts, ns, r) c = (ts, ns ++ [textOrEmpty c], r) by
          simp [userStep, h1, h2]]
        rw [ih]
        simp
      · by_cases h3 : c.children.isEmpty = true
        · rw [show userStep (ts, ns, r) c =
              (ts, ns, setField r (upper c.tag) (some (textOrEmpty c))) by
            simp [userStep, h1, h2, h3]]
          rw [ih]
          simp
        · rw [show userStep (ts, ns, r) c = (ts, ns, r) by
            simp [userStep, h1, h2, h3]]
          rw [ih]
          simp

theorem userFold_nums :
    ∀ (cs : List Elem) (ts ns : List String) (r : Row),
      (cs.foldl userStep (ts, ns, r)).2.1 =
        ns ++ (cs.filter (fun c => c.tag == "PHONE_NUMBER")).map textOrEmpty := by
  intro cs
  induction cs with
  | nil => intro ts ns r; simp
  | cons c cs ih =>
    intro ts ns r
    rw [List.foldl_cons, List.filter_cons]
    by_cases h1 : c.tag = "PHONE_TYPE"
    · have hb : (c.tag == "PHONE_NUMBER") = false := by
        rw [h1]; rfl
      rw [hb]
      rw [show userStep (ts, ns, r) c = (ts ++ [textOrEmpty c], ns, r) by
        simp [userStep, h1]]
      rw [ih]
      simp
    · by_cases h2 : c.tag = "PHONE_NUMBER"
      · rw [show userStep (ts, ns, r) c = (ts, ns ++ [textOrEmpty c], r) by
          simp [userStep, h1, h2]]
        rw [ih]
        simp [h2]
      · have hb : (c.tag == "PHONE_NUMBER") = false := by
          simpa using h2
        rw [hb]
        by_cases h3 : c.children.isEmpty = true
        · rw [show userStep (ts, ns, r) c =
              (ts, ns, setField r (upper c.tag) (some (textOrEmpty c))) by
            simp [userStep, h1, h2, h3]]
          rw [ih]
          simp
        · rw [show userStep (ts, ns, r) c = (ts, ns, r) by
            simp [userStep, h1, h2, h3]]
          rw [ih]
          simp

/-! ### Merge combinator lemmas -/

theorem firstNonNull_eq_firstPresent (rows : List Row) (c : String) :
    firstNonNull rows c = firstPresent (rows.map (fun r => cell r c)) := by
  induction rows with
  | nil => rfl
  | cons r rs ih =>
    cases h : cell r c with
    | none =>
      simp only [firstNonNull, List.map_cons, h, List.filterMap_cons, firstPresent]
      exact ih
    | some s =>
      simp [firstNonNull, firstPresent, h]

theorem firstPresent_eq_none_iff :
    ∀ (vs : List Val), firstPresent vs = none ↔ ∀ v ∈ vs, v = none := by
  intro vs
  induction vs with
  | nil => simp [firstPresent]
  | cons v vs ih =>
    cases v with
    | none => simp [firstPresent, ih]
    | some s => simp [firstPresent]

theorem firstPresent_of_all_eq (k : String) :
    ∀ (vs : List Val), vs ≠ [] → (∀ v ∈ vs, v = some k) → firstPresent vs = some k := by
  intro vs hne hall
  cases vs with
  | nil => exact absurd rfl hne
  | cons v vs =>
    have hv := hall v (by simp)
    rw [hv]
    simp [firstPresent]

theorem getField_mapRow (f : String → Val) :
    ∀ (ls : List String) (c : String), c ∈ ls →
      getField (ls.map (fun x => (x, f x))) c = some (f c) := by
  intro ls
  induction ls with
  | nil => intro c hc; simp at hc
  | cons x xs ih =>
    intro c hc
    rw [List.map_cons]
    by_cases hx : x = c
    · subst hx; simp [getField]
    · rw [getField, if_neg hx]
      refine ih c ?_
      rcases List.mem_cons.mp hc with h | h
      · exact absurd h.symm hx
      · exact h

theorem cell_mergeGroup_key (cols : List String) (key k : String) (rows : List Row) :
    cell (mergeGroup cols key k rows) key = some k := by
  simp [cell, mergeGroup, getField]

theorem cell_mergeGroup_ne (cols : List String) (key k c : String) (rows : List Row)
    (hck : c ≠ key) (hc : c ∈ cols) :
    cell (mergeGroup cols key k rows) c = firstNonNull (groupRows key k rows) c := by
  have hmem : c ∈ cols.filter (fun x => decide (x ≠ key)) := by
    simp [List.mem_filter, hc, hck]
  simp only [cell, mergeGroup, getField]
  rw [if_neg (Ne.symm hck)]
  rw [getField_mapRow _ _ c hmem]
  rfl

/-! ### Group key lemmas -/

theorem insertStr_perm (x : String) : ∀ (l : List String), (insertStr x l).Perm (x :: l) := by
  intro l
  induction l with
  | nil => exact List.Perm.refl _
  | cons y ys ih =>
    rw [insertStr]
    by_cases h : strLt x y = true
    · rw [if_pos h]
    · rw [if_neg h]
      exact (List.Perm.cons y ih).trans (List.Perm.swap x y ys)

theorem sortStr_perm : ∀ (l : List String), (sortStr l).Perm l := by
  intro l
  induction l with
  | nil => exact List.Perm.refl _
  | cons x xs ih => exact (insertStr_perm x (sortStr xs)).trans (List.Perm.cons x ih)

theorem mem_dedupFirst : ∀ (l seen : List String) (a : String),
    a ∈ dedupFirst seen l ↔ a ∈ l ∧ a ∉ seen := by
  intro l
  induction l with
  | nil => intro seen a; simp [dedupFirst]
  | cons x xs ih =>
    intro seen a
    rw [dedupFirst]
    by_cases hx : x ∈ seen
    · rw [if_pos hx, ih]
      constructor
      · rintro ⟨h1, h2⟩; exact ⟨List.mem_cons_of_mem x h1, h2⟩
      · rintro ⟨h1, h2⟩
        rcases List.mem_cons.mp h1 with rfl | h1
        · exact absurd hx h2
        · exact ⟨h1, h2⟩
    · rw [if_neg hx]
      constructor
      · intro hmem
        rcases List.mem_cons.mp hmem with rfl | hmem
        · exact ⟨List.mem_cons_self _ _, hx⟩
        · have h2 := (ih (x :: seen) a).mp hmem
          exact ⟨List.mem_cons_of_mem x h2.1, fun hs => h2.2 (List.mem_cons_of_mem x hs)⟩
      · rintro ⟨h1, h2⟩
        rcases List.mem_cons.mp h1 with rfl | h1
        · exact List.mem_cons_self _ _
        · by_cases hax : a = x
          · subst hax; exact List.mem_cons_self _ _
          · refine List.mem_cons_of_mem x ((ih (x :: seen) a).mpr ⟨h1, ?_⟩)
            simp [hax, h2]

theorem nodup_dedupFirst : ∀ (l seen : List String), (dedupFirst seen l).Nodup := by
  intro l
  induction l with
  | nil => intro seen; simp [dedupFirst]
  | cons x xs ih =>
    intro seen
    rw [dedupFirst]
    by_cases hx : x ∈ seen
    · rw [if_pos hx]; exact ih seen
    · rw [if_neg hx]
      refine List.Nodup.cons (fun hmem => ?_) (ih (x :: seen))
      exact ((mem_dedupFirst xs (x :: seen) x).mp hmem).2 (List.mem_cons_self _ _)

theorem mem_groupKeys (key : String) (rows : List Row) (k : String) :
    k ∈ groupKeys key rows ↔ ∃ r ∈ rows, cell r key = some k := by
  rw [groupKeys, (sortStr_perm _).mem_iff, mem_dedupFirst]
  simp [List.mem_filterMap]

theorem nodup_groupKeys (key : String) (rows : List Row) :
    (groupKeys key rows).Nodup := by
  rw [groupKeys]
  exact (sortStr_perm _).symm.nodup (nodup_dedupFirst _ _)

theorem countP_eq_one_of_nodup_mem (k : String) :
    ∀ (ks : List String), ks.Nodup → k ∈ ks →
      ks.countP (fun j => decide (j = k)) = 1 := by
  intro ks
  induction ks with
  | nil => intro _ h; simp at h
  | cons j js ih =>
    intro hnd hmem
    rw [List.countP_cons]
    rcases List.mem_cons.mp hmem with rfl | hmem
    · have hnotin : k ∉ js := (List.nodup_cons.mp hnd).1
      rw [List.countP_eq_zero.mpr ?_]
      · simp
      · intro a ha
        simp only [decide_eq_true_eq]
        rintro rfl
        exact hnotin ha
    · have hne : j ≠ k := by
        rintro rfl
        exact (List.nodup_cons.mp hnd).1 hmem
      rw [ih (List.nodup_cons.mp hnd).2 hmem]
      simp [hne]

/-! ### dedup satisfies the merge specification -/

theorem dedup_ok_inv (df : DF) (key : String) (out : DF)
    (h : dedup df key = Except.ok out) :
    key ∈ df.cols ∧
      out = ⟨key :: df.cols.filter (fun c => c ≠ key),
        (groupKeys key df.rows).map (fun k => mergeGroup df.cols key k df.rows)⟩ := by
  by_cases hk : key ∈ df.cols
  · refine ⟨hk, ?_⟩
    rw [dedup, if_pos hk] at h
    injection h with h
    exact h.symm
  · rw [dedup, if_neg hk] at h
    exact Except.noConfusion h

theorem dedup_props (rows : List Row) (key : String) (out : DF)
    (h : dedup (mkDF rows) key = Except.ok out) : MergeSpec rows key out := by
  obtain ⟨hk, hout⟩ := dedup_ok_inv _ _ _ h
  have hrows : out.rows =
      (groupKeys key rows).map (fun k => mergeGroup (dfCols rows) key k rows) := by
    rw [hout]
    rfl
  have hcell3 : ∀ r ∈ out.rows, ∀ c ∈ dfCols rows,
      cell r c =
        firstPresent ((rows.filter (fun x => cell x key = cell r key)).map (fun x => cell x c)) := by
    intro r hr c hc
    rw [hrows] at hr
    obtain ⟨k, hkmem, rfl⟩ := List.mem_map.mp hr
    have hkey : cell (mergeGroup (dfCols rows) key k rows) key = some k :=
      cell_mergeGroup_key _ _ _ _
    obtain ⟨r0, hr0, hr0k⟩ := (mem_groupKeys key rows k).mp hkmem
    by_cases hck : c = key
    · subst hck
      rw [hkey]
      refine (firstPresent_of_all_eq k _ ?_ ?_).symm
      · refine List.ne_nil_of_mem (a := cell r0 c) (List.mem_map_of_mem _ ?_)
        simp only [List.mem_filter]
        exact ⟨hr0, by simp [hr0k]⟩
      · intro v hv
        obtain ⟨x, hx, rfl⟩ := List.mem_map.mp hv
        have := (List.mem_filter.mp hx).2
        simpa using this
    · rw [hkey]
      rw [cell_mergeGroup_ne _ _ _ _ _ hck hc]
      rw [firstNonNull_eq_firstPresent]
      rfl
  refine ⟨?_, ?_, hcell3, ?_⟩
  · intro k
    constructor
    · intro hex
      have hkmem : k ∈ groupKeys key rows := (mem_groupKeys key rows k).mpr hex
      refine ⟨mergeGroup (dfCols rows) key k rows, ?_, cell_mergeGroup_key _ _ _ _⟩
      rw [hrows]
      exact List.mem_map_of_mem _ hkmem
    · rintro ⟨r, hr, hrk⟩
      rw [hrows] at hr
      obtain ⟨j, hj, rfl⟩ := List.mem_map.mp hr
      have hjk : j = k := by
        refine Option.some.inj (α := String) ?_
        rw [← cell_mergeGroup_key (dfCols rows) key j rows, hrk]
      rw [← hjk]
      exact (mem_groupKeys key rows j).mp hj
  · intro k hex
    rw [hrows, List.countP_map]
    have hcong : ((groupKeys key rows).countP
          ((fun r => decide (cell r key = some k)) ∘ fun j => mergeGroup (dfCols rows) key j rows)) =
        (groupKeys key rows).countP (fun j => decide (j = k)) := by
      refine List.countP_congr ?_
      intro j hj
      simp [Function.comp, cell_mergeGroup_key]
    rw [hcong]
    exact countP_eq_one_of_nodup_mem k _ (nodup_groupKeys key rows)
      ((mem_groupKeys key rows k).mpr hex)
  · intro r hr c hc
    rw [hcell3 r hr c hc, firstPresent_eq_none_iff]
    constructor
    · intro hall x hx hxk
      refine hall (cell x c) (List.mem_map_of_mem _ ?_)
      simp only [List.mem_filter]
      exact ⟨hx, by simp [hxk]⟩
    · intro hall v hv
      obtain ⟨x, hx, rfl⟩ := List.mem_map.mp hv
      obtain ⟨hx1, hx2⟩ := List.mem_filter.mp hx
      exact hall x hx1 (by simpa using hx2)

/-! ### Except bind inversion -/

theorem except_bind_ok {α β : Type} {x : Except String α} {f : α → Except String β} {b : β}
    (h : (x >>= f) = Except.ok b) : ∃ a, x = Except.ok a ∧ f a = Except.ok b := by
  cases x with
  | error e => exact Except.noConfusion h
  | ok a => exact ⟨a, rfl, h⟩

theorem build_outputs_ok_inv (g p u : List Row) (t1 t2 t3 t4 : DF)
    (h : build_outputs g p u = Except.ok (t1, t2, t3, t4)) :
    drop_duplicates (mkDF g) ["GRN"] = Except.ok t1 ∧
    dedup (mkDF p) "PAYEE_ID" = Except.ok t2 ∧
    dedup (mkDF u) "USER_ID" = Except.ok t3 ∧
    ∃ proj, selectCols (mkDF u) ["GRN", "PAYEE_ID", "USER_ID"] = Except.ok proj ∧
      t4 = dropDupAll proj := by
  simp only [build_outputs] at h
  obtain ⟨a1, h1, h⟩ := except_bind_ok h
  obtain ⟨a2, h2, h⟩ := except_bind_ok h
  obtain ⟨a3, h3, h⟩ := except_bind_ok h
  obtain ⟨proj, h4, h⟩ := except_bind_ok h
  injection h with h
  obtain ⟨e1, e2, e3, e4⟩ : a1 = t1 ∧ a2 = t2 ∧ a3 = t3 ∧ dropDupAll proj = t4 := by
    simpa [Prod.ext_iff] using h
  subst e1; subst e2; subst e3
  exact ⟨h1, h2, h3, proj, h4, e4.symm⟩

/-! ### First-occurrence deduplication lemmas -/

theorem dropDupRows_eq_keepFirstBy (keyf : Row → List Val) :
    ∀ (rows : List Row) (seen : List (List Val)),
      maskFilter rows (duplicatedMarks keyf seen rows) = keepFirstBy keyf seen rows := by
  intro rows
  induction rows with
  | nil => intro seen; rfl
  | cons r rs ih =>
    intro seen
    simp only [duplicatedMarks, maskFilter, keepFirstBy]
    by_cases h : keyf r ∈ seen
    · simp [h, ih]
    · simp [h, ih]

theorem dropDupRows_eq (keyf : Row → List Val) (rows : List Row) :
    dropDupRows keyf rows = keepFirstBy keyf [] rows :=
  dropDupRows_eq_keepFirstBy keyf rows []

theorem keepFirstBy_sublist (keyf : Row → List Val) :
    ∀ (rows : List Row) (seen : List (List Val)),
      (keepFirstBy keyf seen rows).Sublist rows := by
  intro rows
  induction rows with
  | nil => intro seen; simp [keepFirstBy]
  | cons r rs ih =>
    intro seen
    rw [keepFirstBy]
    by_cases h : keyf r ∈ seen
    · rw [if_pos h]
      exact (ih _).cons _
    · rw [if_neg h]
      exact (ih _).cons₂ _

theorem keepFirstBy_filter (keyf : Row → List Val) :
    ∀ (rows : List Row) (seen : List (List Val)) (v : List Val),
      (keepFirstBy keyf seen rows).filter (fun r => decide (keyf r = v)) =
        if v ∈ seen then []
        else ((rows.filter (fun r => decide (keyf r = v))).head?).toList := by
  intro rows
  induction rows with
  | nil =>
    intro seen v
    simp [keepFirstBy]
  | cons r rs ih =>
    intro seen v
    rw [keepFirstBy]
    by_cases h : keyf r ∈ seen
    · rw [if_pos h, ih _ v]
      by_cases hv : keyf r = v
      · have hvs : v ∈ seen := hv ▸ h
        rw [if_pos (List.mem_cons_of_mem _ hvs), if_pos hvs]
      · by_cases hvs : v ∈ seen
        · rw [if_pos (List.mem_cons_of_mem _ hvs), if_pos hvs]
        · have hnc : ¬ (v ∈ keyf r :: seen) := by
            intro hmm
            rcases List.mem_cons.mp hmm with h1 | h1
            · exact hv h1.symm
            · exact hvs h1
          rw [if_neg hnc, if_neg hvs, List.filter_cons, if_neg (by simpa using hv)]
    · rw [if_neg h, List.filter_cons]
      by_cases hv : keyf r = v
      · rw [if_pos (by simpa using hv), ih _ v]
        rw [if_pos (show v ∈ keyf r :: seen by rw [← hv]; exact List.mem_cons_self _ _)]
        have hvs : ¬ v ∈ seen := fun hs => h (by rw [hv]; exact hs)
        rw [if_neg hvs, List.filter_cons, if_pos (by simpa using hv)]
        simp
      · rw [if_neg (by simpa using hv), ih _ v]
        have hiff : (v ∈ keyf r :: seen) ↔ v ∈ seen := by
          constructor
          · intro hmm
            rcases List.mem_cons.mp hmm with h1 | h1
            · exact absurd h1.symm hv
            · exact h1
          · exact List.mem_cons_of_mem _
        by_cases hvs : v ∈ seen
        · rw [if_pos (hiff.mpr hvs), if_pos hvs]
        · rw [if_neg (fun hmm => hvs (hiff.mp hmm)), if_neg hvs, List.filter_cons,
            if_neg (by simpa using hv)]

/-! ### drop_duplicates and selectCols inversions -/

theorem drop_duplicates_ok_inv (df : DF) (subset : List String) (out : DF)
    (h : drop_duplicates df subset = Except.ok out) :
    subset.all (fun c => decide (c ∈ df.cols)) = true ∧
      out = ⟨df.cols, keepFirstBy (keyOf subset) [] df.rows⟩ := by
  by_cases hc : subset.all (fun c => decide (c ∈ df.cols)) = true
  · refine ⟨hc, ?_⟩
    rw [drop_duplicates, if_pos hc] at h
    injection h with h
    rw [← h, dropDupRows, dropDupRows_eq_keepFirstBy]
  · rw [drop_duplicates, if_neg hc] at h
    exact Except.noConfusion h

theorem selectCols_ok_inv (df : DF) (sub : List String) (out : DF)
    (h : selectCols df sub = Except.ok out) :
    out = ⟨sub, df.rows.map (fun r => sub.map (fun c => (c, cell r c)))⟩ := by
  by_cases hc : sub.all (fun c => decide (c ∈ df.cols)) = true
  · rw [selectCols, if_pos hc] at h
    injection h with h
    exact h.symm
  · rw [selectCols, if_neg hc] at h
    exact Except.noConfusion h

theorem cell_project (r : Row) (c : String) (sub : List String) (hc : c ∈ sub) :
    cell (sub.map (fun x => (x, cell r x))) c = cell r c := by
  rw [cell, getField_mapRow _ _ _ hc]
  rfl

theorem keyOf_project (sub : List String) (r : Row) :
    keyOf sub (sub.map (fun x => (x, cell r x))) = keyOf sub r := by
  rw [keyOf, keyOf]
  refine List.map_congr_left ?_
  intro c hc
  exact cell_project r c sub hc

/-! ### Null-keyed rows and groupby -/

theorem filterMap_cell_filter_isSome (rows : List Row) (key : String) :
    (rows.filter (fun r => (cell r key).isSome)).filterMap (fun r => cell r key) =
      rows.filterMap (fun r => cell r key) := by
  induction rows with
  | nil => rfl
  | cons r rs ih =>
    rw [List.filter_cons]
    cases h : cell r key with
    | none => simp [h, ih]
    | some s => simp [h, ih]

theorem groupRows_filter_isSome (rows : List Row) (key k : String) :
    groupRows key k (rows.filter (fun r => (cell r key).isSome)) = groupRows key k rows := by
  rw [groupRows, groupRows, List.filter_filter]
  refine List.filter_congr ?_
  intro r _
  cases h : cell r key with
  | none => simp [h]
  | some s => simp [h]

theorem except_bind_ok_eq {α β : Type} (a : α) (f : α → Except String β) :
    (Except.ok a >>= f) = f a := rfl

/-! ### Claim theorems -/

/-- C1: for every raw Payee (resp. User) row collection accepted by
normalize, the Payee table (resp. User table) contains exactly one row per
distinct non-null PAYEE_ID (resp. USER_ID) value occurring among the rows,
and each output column of that row equals the first non-null value of that
column among the rows sharing the key, scanned in their original order; an
empty string counts as a present value and stops the scan, and the merged
value is null exactly when every row of the group has null for that column
(the fate of rows whose key itself is null is settled separately). -/
theorem normalize_merges_first_non_null (g p u : List Row) (t1 t2 t3 t4 : DF)
    (h : build_outputs g p u = Except.ok (t1, t2, t3, t4)) :
    MergeSpec p "PAYEE_ID" t2 ∧ MergeSpec u "USER_ID" t3 := by
  obtain ⟨_, h2, h3, _⟩ := build_outputs_ok_inv g p u t1 t2 t3 t4 h
  exact ⟨dedup_props _ _ _ h2, dedup_props _ _ _ h3⟩

/-- Witness for C1 at a concrete input: the two Payee rows sharing key p1
merge field-wise (NAME from the second row, PHONE from the first). -/
theorem normalize_merges_first_non_null_witness :
    build_outputs
        [[("GRN", some "g1")]]
        [[("PAYEE_ID", some "p1"), ("NAME", none), ("PHONE", some "555")],
         [("PAYEE_ID", some "p1"), ("NAME", some "Jane")]]
        [[("GRN", some "g1"), ("PAYEE_ID", some "p1"), ("USER_ID", some "u1"),
          ("PHONE_TYPES", none), ("PHONE_NUMBERS", none)]] =
      Except.ok
        (⟨["GRN"], [[("GRN", some "g1")]]⟩,
         ⟨["PAYEE_ID", "NAME", "PHONE"],
          [[("PAYEE_ID", some "p1"), ("NAME", some "Jane"), ("PHONE", some "555")]]⟩,
         ⟨["USER_ID", "GRN", "PAYEE_ID", "PHONE_TYPES", "PHONE_NUMBERS"],
          [[("USER_ID", some "u1"), ("GRN", some "g1"), ("PAYEE_ID", some "p1"),
            ("PHONE_TYPES", none), ("PHONE_NUMBERS", none)]]⟩,
         ⟨["GRN", "PAYEE_ID", "USER_ID"],
          [[("GRN", some "g1"), ("PAYEE_ID", some "p1"), ("USER_ID", some "u1")]]⟩) ∧
    MergeSpec
        [[("PAYEE_ID", some "p1"), ("NAME", none), ("PHONE", some "555")],
         [("PAYEE_ID", some "p1"), ("NAME", some "Jane")]]
        "PAYEE_ID"
        ⟨["PAYEE_ID", "NAME", "PHONE"],
         [[("PAYEE_ID", some "p1"), ("NAME", some "Jane"), ("PHONE", some "555")]]⟩ := by
  have h : build_outputs
      [[("GRN", some "g1")]]
      [[("PAYEE_ID", some "p1"), ("NAME", none), ("PHONE", some "555")],
       [("PAYEE_ID", some "p1"), ("NAME", some "Jane")]]
      [[("GRN", some "g1"), ("PAYEE_ID", some "p1"), ("USER_ID", some "u1"),
        ("PHONE_TYPES", none), ("PHONE_NUMBERS", none)]] =
    Except.ok
      (⟨["GRN"], [[("GRN", some "g1")]]⟩,
       ⟨["PAYEE_ID", "NAME", "PHONE"],
        [[("PAYEE_ID", some "p1"), ("NAME", some "Jane"), ("PHONE", some "555")]]⟩,
       ⟨["USER_ID", "GRN", "PAYEE_ID", "PHONE_TYPES", "PHONE_NUMBERS"],
        [[("USER_ID", some "u1"), ("GRN", some "g1"), ("PAYEE_ID", some "p1"),
          ("PHONE_TYPES", none), ("PHONE_NUMBERS", none)]]⟩,
       ⟨["GRN", "PAYEE_ID", "USER_ID"],
        [[("GRN", some "g1"), ("PAYEE_ID", some "p1"), ("USER_ID", some "u1")]]⟩) := rfl
  exact ⟨h, (normalize_merges_first_non_null _ _ _ _ _ _ _ h).1⟩

/-- C2 counterexample: a Payee collection with one row keyed p1 and two
rows whose PAYEE_ID is null (one missing the field, one holding null).
The claim predicts a single merged null-key output row in addition to the
p1 row; the code instead drops both null-keyed rows: the input has two
null-keyed rows, yet the output is the single p1 row and contains no
null-keyed row at all. -/
theorem null_key_rows_not_grouped_counterexample :
    dedup (mkDF [[("PAYEE_ID", some "1"), ("NAME", some "A")],
                 [("NAME", some "B")],
                 [("PAYEE_ID", none), ("NAME", some "C")]]) "PAYEE_ID" =
      Except.ok ⟨["PAYEE_ID", "NAME"], [[("PAYEE_ID", some "1"), ("NAME", some "A")]]⟩ ∧
    ([[("PAYEE_ID", some "1"), ("NAME", some "A")],
      [("NAME", some "B")],
      [("PAYEE_ID", none), ("NAME", some "C")]].countP
        (fun r => decide (cell r "PAYEE_ID" = none))) = 2 ∧
    ([[("PAYEE_ID", some "1"), ("NAME", some "A")]].countP
        (fun r => decide (cell r "PAYEE_ID" = none))) = 0 := by
  exact ⟨rfl, rfl, rfl⟩

/-- C2 amended: rows whose grouping key is null are dropped by the
Payee/User deduplication, not merged into a null-key group and not kept:
the dedup output is computed from the non-null-keyed rows alone, and every
output row carries a non-null key. -/
theorem null_key_rows_dropped (rows : List Row) (key : String) :
    (dedup (mkDF rows) key =
      dedup ⟨dfCols rows, rows.filter (fun r => (cell r key).isSome)⟩ key) ∧
    (∀ out, dedup (mkDF rows) key = Except.ok out →
      ∀ r ∈ out.rows, (cell r key).isSome = true) := by
  constructor
  · simp only [dedup, mkDF]
    by_cases hk : key ∈ dfCols rows
    · rw [if_pos hk, if_pos hk]
      have hgk : groupKeys key (rows.filter (fun r => (cell r key).isSome)) =
          groupKeys key rows := by
        rw [groupKeys, groupKeys, filterMap_cell_filter_isSome]
      rw [hgk]
      refine congrArg Except.ok ?_
      refine congrArg (DF.mk _) ?_
      refine List.map_congr_left ?_
      intro k _
      rw [mergeGroup, mergeGroup, groupRows_filter_isSome]
    · rw [if_neg hk, if_neg hk]
  · intro out hout r hr
    obtain ⟨_, hout2⟩ := dedup_ok_inv _ _ _ hout
    subst hout2
    obtain ⟨k, _, rfl⟩ := List.mem_map.mp hr
    rw [cell_mergeGroup_key]
    rfl

/-- Witness for C2 amended at a concrete input: with one null-keyed row
present, dedup of the full collection equals dedup of the collection with
the null-keyed row removed, and the single output row has a non-null key. -/
theorem null_key_rows_dropped_witness :
    (dedup (mkDF [[("PAYEE_ID", some "1"), ("NAME", some "A")], [("NAME", some "B")]])
        "PAYEE_ID" =
      dedup ⟨dfCols [[("PAYEE_ID", some "1"), ("NAME", some "A")], [("NAME", some "B")]],
        ([[("PAYEE_ID", some "1"), ("NAME", some "A")], [("NAME", some "B")]].filter
          (fun r => (cell r "PAYEE_ID").isSome))⟩ "PAYEE_ID") ∧
    ((cell [("PAYEE_ID", some "1"), ("NAME", some "A")] "PAYEE_ID").isSome = true) := by
  refine ⟨(null_key_rows_dropped
      [[("PAYEE_ID", some "1"), ("NAME", some "A")], [("NAME", some "B")]] "PAYEE_ID").1, ?_⟩
  refine (null_key_rows_dropped
      [[("PAYEE_ID", some "1"), ("NAME", some "A")], [("NAME", some "B")]] "PAYEE_ID").2
      ⟨["PAYEE_ID", "NAME"], [[("PAYEE_ID", some "1"), ("NAME", some "A")]]⟩ rfl
      [("PAYEE_ID", some "1"), ("NAME", some "A")] (by simp)

/-- C3 counterexample: on three empty raw collections normalize does not
return four empty tables; it fails with the KeyError raised by
drop_duplicates on the missing GRN column (pandas raises before any table
is produced). -/
theorem normalize_empty_input_counterexample :
    build_outputs [] [] [] = Except.error "KeyError: GRN" := rfl

/-- C3 amended: normalization fails with a missing-column KeyError when a
required key column (GRN for the GRN rows, PAYEE_ID for the Payee rows,
GRN / PAYEE_ID / USER_ID for the User rows) is absent — in particular on
empty collections — and succeeds whenever those columns are present. -/
theorem normalize_ok_iff_key_columns_present (g p u : List Row)
    (hg : "GRN" ∈ dfCols g) (hp : "PAYEE_ID" ∈ dfCols p) (hu3 : "USER_ID" ∈ dfCols u)
    (hu1 : "GRN" ∈ dfCols u) (hu2 : "PAYEE_ID" ∈ dfCols u) :
    ∃ t, build_outputs g p u = Except.ok t := by
  have h1 : drop_duplicates (mkDF g) ["GRN"] =
      Except.ok ⟨dfCols g, dropDupRows (keyOf ["GRN"]) g⟩ := by
    rw [drop_duplicates, if_pos (by simp [mkDF, hg])]
    rfl
  have h2 : dedup (mkDF p) "PAYEE_ID" =
      Except.ok ⟨"PAYEE_ID" :: (dfCols p).filter (fun c => c ≠ "PAYEE_ID"),
        (groupKeys "PAYEE_ID" p).map (fun k => mergeGroup (dfCols p) "PAYEE_ID" k p)⟩ := by
    rw [dedup, if_pos (show "PAYEE_ID" ∈ (mkDF p).cols from hp)]
    rfl
  have h3 : dedup (mkDF u) "USER_ID" =
      Except.ok ⟨"USER_ID" :: (dfCols u).filter (fun c => c ≠ "USER_ID"),
        (groupKeys "USER_ID" u).map (fun k => mergeGroup (dfCols u) "USER_ID" k u)⟩ := by
    rw [dedup, if_pos (show "USER_ID" ∈ (mkDF u).cols from hu3)]
    rfl
  have h4 : selectCols (mkDF u) ["GRN", "PAYEE_ID", "USER_ID"] =
      Except.ok ⟨["GRN", "PAYEE_ID", "USER_ID"],
        u.map (fun r => ["GRN", "PAYEE_ID", "USER_ID"].map (fun c => (c, cell r c)))⟩ := by
    rw [selectCols, if_pos (by simp [mkDF, hu1, hu2, hu3])]
    rfl
  refine ⟨(⟨dfCols g, dropDupRows (keyOf ["GRN"]) g⟩,
    ⟨"PAYEE_ID" :: (dfCols p).filter (fun c => c ≠ "PAYEE_ID"),
      (groupKeys "PAYEE_ID" p).map (fun k => mergeGroup (dfCols p) "PAYEE_ID" k p)⟩,
    ⟨"USER_ID" :: (dfCols u).filter (fun c => c ≠ "USER_ID"),
      (groupKeys "USER_ID" u).map (fun k => mergeGroup (dfCols u) "USER_ID" k u)⟩,
    dropDupAll ⟨["GRN", "PAYEE_ID", "USER_ID"],
      u.map (fun r => ["GRN", "PAYEE_ID", "USER_ID"].map (fun c => (c, cell r c)))⟩), ?_⟩
  simp only [build_outputs, h1, h2, h3, h4, except_bind_ok_eq]
  rfl

/-- Witness for C3 amended: with the key columns present, normalization
succeeds. -/
theorem normalize_ok_iff_key_columns_present_witness :
    ("GRN" ∈ dfCols [[("GRN", some "g1")]] ∧
      "PAYEE_ID" ∈ dfCols [[("PAYEE_ID", some "p1")]] ∧
      "USER_ID" ∈ dfCols [[("GRN", none), ("PAYEE_ID", none), ("USER_ID", some "u1")]]) ∧
    ∃ t, build_outputs [[("GRN", some "g1")]] [[("PAYEE_ID", some "p1")]]
        [[("GRN", none), ("PAYEE_ID", none), ("USER_ID", some "u1")]] = Except.ok t := by
  refine ⟨⟨by decide, by decide, by decide⟩, ?_⟩
  exact normalize_ok_iff_key_columns_present _ _ _
    (by decide) (by decide) (by decide) (by decide) (by decide)

/-- C4 counterexample: a user element whose only PHONE_TYPE child has no
text yields PHONE_TYPES equal to the empty string, not null — the list of
collected values is non-empty, so the join of its single empty value is
kept; the claim states the field is never an empty string. -/
theorem phone_types_empty_string_counterexample :
    (parse_xml ⟨"root", none, [⟨"partnership", none, [⟨"GRN", some "g1", []⟩,
        ⟨"payee", none, [⟨"PAYEE_ID", some "p1", []⟩,
          ⟨"user", none, [⟨"PHONE_TYPE", none, []⟩, ⟨"USER_ID", some "u1", []⟩]⟩]⟩]⟩]⟩).2.2 =
      [[("GRN", some "g1"), ("PAYEE_ID", some "p1"), ("USER_ID", some "u1"),
        ("PHONE_TYPES", some ""), ("PHONE_NUMBERS", none)]] ∧
    getField [("GRN", some "g1"), ("PAYEE_ID", some "p1"), ("USER_ID", some "u1"),
        ("PHONE_TYPES", some ""), ("PHONE_NUMBERS", none)] "PHONE_TYPES" = some (some "") :=
  ⟨rfl, rfl⟩

/-- C4 amended: for every user element, PHONE_TYPES (resp. PHONE_NUMBERS)
is the semicolon-and-space join of the trimmed text values of all children
tagged PHONE_TYPE (resp. PHONE_NUMBER) in document order, and is null
exactly when no such children are present; when such children exist the
value is the join, which is the empty string when the only collected
values are empty. -/
theorem user_phone_aggregation (g p0 : Val) (user : Elem) :
    getField (userRowOf g p0 user) "PHONE_TYPES" =
      some (phoneAgg
        ((user.children.filter (fun c => c.tag == "PHONE_TYPE")).map textOrEmpty)) ∧
    getField (userRowOf g p0 user) "PHONE_NUMBERS" =
      some (phoneAgg
        ((user.children.filter (fun c => c.tag == "PHONE_NUMBER")).map textOrEmpty)) := by
  constructor
  · simp only [userRowOf]
    rw [getField_setField_ne _ _ _ _ (by decide), getField_setField_self, userFold_types]
    simp
  · simp only [userRowOf]
    rw [getField_setField_self, userFold_nums]
    simp

/-- C5: the GRN table produced by normalize contains, for each distinct
GRN cell value (null included, since pandas drop_duplicates treats nulls
as equal), exactly the first raw row carrying that value, kept verbatim
and in first-occurrence order (the output rows form a sublist of the raw
rows); later rows with the same GRN are discarded with no field merging. -/
theorem grn_table_keeps_first_row (g p u : List Row) (t1 t2 t3 t4 : DF)
    (h : build_outputs g p u = Except.ok (t1, t2, t3, t4)) :
    t1.cols = dfCols g ∧ t1.rows.Sublist g ∧
      ∀ v : Val, t1.rows.filter (fun r => decide (cell r "GRN" = v)) =
        ((g.filter (fun r => decide (cell r "GRN" = v))).head?).toList := by
  obtain ⟨h1, _, _, _⟩ := build_outputs_ok_inv g p u t1 t2 t3 t4 h
  obtain ⟨_, ht⟩ := drop_duplicates_ok_inv _ _ _ h1
  subst ht
  refine ⟨rfl, keepFirstBy_sublist _ _ _, ?_⟩
  intro v
  have hcong : ∀ (l : List Row),
      l.filter (fun r => decide (cell r "GRN" = v)) =
        l.filter (fun r => decide (keyOf ["GRN"] r = [v])) := by
    intro l
    refine List.filter_congr ?_
    intro r _
    simp [keyOf]
  rw [hcong, hcong, keepFirstBy_filter]
  simp [mkDF]

/-- Witness for C5 at a concrete input: of two rows with GRN x the first
is kept verbatim; the row with GRN y is kept as well. -/
theorem grn_table_keeps_first_row_witness :
    build_outputs
        [[("GRN", some "x"), ("A", some "1")], [("GRN", some "x"), ("A", some "2")],
         [("GRN", some "y")]]
        [[("PAYEE_ID", some "p1"), ("NAME", none), ("PHONE", some "555")],
         [("PAYEE_ID", some "p1"), ("NAME", some "Jane")]]
        [[("GRN", some "g1"), ("PAYEE_ID", some "p1"), ("USER_ID", some "u1"),
          ("PHONE_TYPES", none), ("PHONE_NUMBERS", none)]] =
      Except.ok
        (⟨["GRN", "A"], [[("GRN", some "x"), ("A", some "1")], [("GRN", some "y")]]⟩,
         ⟨["PAYEE_ID", "NAME", "PHONE"],
          [[("PAYEE_ID", some "p1"), ("NAME", some "Jane"), ("PHONE", some "555")]]⟩,
         ⟨["USER_ID", "GRN", "PAYEE_ID", "PHONE_TYPES", "PHONE_NUMBERS"],
          [[("USER_ID", some "u1"), ("GRN", some "g1"), ("PAYEE_ID", some "p1"),
            ("PHONE_TYPES", none), ("PHONE_NUMBERS", none)]]⟩,
         ⟨["GRN", "PAYEE_ID", "USER_ID"],
          [[("GRN", some "g1"), ("PAYEE_ID", some "p1"), ("USER_ID", some "u1")]]⟩) ∧
    (⟨["GRN", "A"], [[("GRN", some "x"), ("A", some "1")], [("GRN", some "y")]]⟩ : DF).cols =
        dfCols [[("GRN", some "x"), ("A", some "1")], [("GRN", some "x"), ("A", some "2")],
          [("GRN", some "y")]] ∧
    (⟨["GRN", "A"], [[("GRN", some "x"), ("A", some "1")], [("GRN", some "y")]]⟩ : DF).rows.Sublist
        [[("GRN", some "x"), ("A", some "1")], [("GRN", some "x"), ("A", some "2")],
         [("GRN", some "y")]] ∧
    ∀ v : Val,
      (⟨["GRN", "A"], [[("GRN", some "x"), ("A", some "1")], [("GRN", some "y")]]⟩ : DF).rows.filter
          (fun r => decide (cell r "GRN" = v)) =
        (([[("GRN", some "x"), ("A", some "1")], [("GRN", some "x"), ("A", some "2")],
           [("GRN", some "y")]].filter (fun r => decide (cell r "GRN" = v))).head?).toList := by
  have h : build_outputs
      [[("GRN", some "x"), ("A", some "1")], [("GRN", some "x"), ("A", some "2")],
       [("GRN", some "y")]]
      [[("PAYEE_ID", some "p1"), ("NAME", none), ("PHONE", some "555")],
       [("PAYEE_ID", some "p1"), ("NAME", some "Jane")]]
      [[("GRN", some "g1"), ("PAYEE_ID", some "p1"), ("USER_ID", some "u1"),
        ("PHONE_TYPES", none), ("PHONE_NUMBERS", none)]] =
    Except.ok
      (⟨["GRN", "A"], [[("GRN", some "x"), ("A", some "1")], [("GRN", some "y")]]⟩,
       ⟨["PAYEE_ID", "NAME", "PHONE"],
        [[("PAYEE_ID", some "p1"), ("NAME", some "Jane"), ("PHONE", some "555")]]⟩,
       ⟨["USER_ID", "GRN", "PAYEE_ID", "PHONE_TYPES", "PHONE_NUMBERS"],
        [[("USER_ID", some "u1"), ("GRN", some "g1"), ("PAYEE_ID", some "p1"),
          ("PHONE_TYPES", none), ("PHONE_NUMBERS", none)]]⟩,
       ⟨["GRN", "PAYEE_ID", "USER_ID"],
        [[("GRN", some "g1"), ("PAYEE_ID", some "p1"), ("USER_ID", some "u1")]]⟩) := rfl
  obtain ⟨hc, hs, hf⟩ := grn_table_keeps_first_row _ _ _ _ _ _ _ h
  exact ⟨h, hc, hs, hf⟩

/-- C6: the mapping table produced by normalize is the projection of the
raw user rows onto exactly the columns GRN, PAYEE_ID, USER_ID with exact
duplicate triples removed, preserving first-occurrence order: its rows are
a sublist of the projected user rows, each distinct triple keeps exactly
its first occurrence, the row count is at most the number of user rows,
and every mapping row is the projection of some user row (no further
deduplication by any proper subset of the three columns). -/
theorem mapping_table_projection (g p u : List Row) (t1 t2 t3 t4 : DF)
    (h : build_outputs g p u = Except.ok (t1, t2, t3, t4)) :
    t4.cols = ["GRN", "PAYEE_ID", "USER_ID"] ∧
    t4.rows.Sublist (u.map projectUser) ∧
    (∀ v : List Val,
      t4.rows.filter (fun r => decide (keyOf ["GRN", "PAYEE_ID", "USER_ID"] r = v)) =
        (((u.map projectUser).filter
          (fun r => decide (keyOf ["GRN", "PAYEE_ID", "USER_ID"] r = v))).head?).toList) ∧
    t4.rows.length ≤ u.length ∧
    (∀ r ∈ t4.rows, ∃ x ∈ u, r = projectUser x) := by
  obtain ⟨_, _, _, proj, h4, ht4⟩ := build_outputs_ok_inv g p u t1 t2 t3 t4 h
  have hproj := selectCols_ok_inv _ _ _ h4
  subst hproj
  subst ht4
  have hrows : (dropDupAll ⟨["GRN", "PAYEE_ID", "USER_ID"],
        (mkDF u).rows.map
          (fun r => ["GRN", "PAYEE_ID", "USER_ID"].map (fun c => (c, cell r c)))⟩).rows =
      keepFirstBy (keyOf ["GRN", "PAYEE_ID", "USER_ID"]) [] (u.map projectUser) :=
    dropDupRows_eq _ _
  refine ⟨rfl, ?_, ?_, ?_, ?_⟩
  · rw [hrows]
    exact keepFirstBy_sublist _ _ _
  · intro v
    rw [hrows, keepFirstBy_filter]
    simp
  · rw [hrows]
    exact le_trans (List.Sublist.length_le (keepFirstBy_sublist _ _ _))
      (le_of_eq (List.length_map _ _))
  · intro r hr
    rw [hrows] at hr
    have hmem := (keepFirstBy_sublist _ _ _).subset hr
    obtain ⟨x, hx, hxe⟩ := List.mem_map.mp hmem
    exact ⟨x, hx, hxe.symm⟩

/-- Witness for C6 at a concrete input: two user rows with the same triple
collapse to one mapping row, while the same USER_ID under a second
PAYEE_ID is kept as a separate mapping row. -/
theorem mapping_table_projection_witness :
    build_outputs
        [[("GRN", some "g1")]]
        [[("PAYEE_ID", some "p1"), ("NAME", none), ("PHONE", some "555")],
         [("PAYEE_ID", some "p1"), ("NAME", some "Jane")]]
        [[("GRN", some "g1"), ("PAYEE_ID", some "p1"), ("USER_ID", some "u1"), ("X", some "a")],
         [("GRN", some "g1"), ("PAYEE_ID", some "p1"), ("USER_ID", some "u1"), ("X", some "b")],
         [("GRN", some "g1"), ("PAYEE_ID", some "p2"), ("USER_ID", some "u1")]] =
      Except.ok
        (⟨["GRN"], [[("GRN", some "g1")]]⟩,
         ⟨["PAYEE_ID", "NAME", "PHONE"],
          [[("PAYEE_ID", some "p1"), ("NAME", some "Jane"), ("PHONE", some "555")]]⟩,
         ⟨["USER_ID", "GRN", "PAYEE_ID", "X"],
          [[("USER_ID", some "u1"), ("GRN", some "g1"), ("PAYEE_ID", some "p1"),
            ("X", some "a")]]⟩,
         ⟨["GRN", "PAYEE_ID", "USER_ID"],
          [[("GRN", some "g1"), ("PAYEE_ID", some "p1"), ("USER_ID", some "u1")],
           [("GRN", some "g1"), ("PAYEE_ID", some "p2"), ("USER_ID", some "u1")]]⟩) ∧
    (⟨["GRN", "PAYEE_ID", "USER_ID"],
      [[("GRN", some "g1"), ("PAYEE_ID", some "p1"), ("USER_ID", some "u1")],
       [("GRN", some "g1"), ("PAYEE_ID", some "p2"), ("USER_ID", some "u1")]]⟩ : DF).rows.length ≤
      [[("GRN", some "g1"), ("PAYEE_ID", some "p1"), ("USER_ID", some "u1"), ("X", some "a")],
       [("GRN", some "g1"), ("PAYEE_ID", some "p1"), ("USER_ID", some "u1"), ("X", some "b")],
       [("GRN", some "g1"), ("PAYEE_ID", some "p2"), ("USER_ID", some "u1")]].length ∧
    ∀ r ∈ (⟨["GRN", "PAYEE_ID", "USER_ID"],
      [[("GRN", some "g1"), ("PAYEE_ID", some "p1"), ("USER_ID", some "u1")],
       [("GRN", some "g1"), ("PAYEE_ID", some "p2"), ("USER_ID", some "u1")]]⟩ : DF).rows,
      ∃ x ∈ [[("GRN", some "g1"), ("PAYEE_ID", some "p1"), ("USER_ID", some "u1"),
              ("X", some "a")],
             [("GRN", some "g1"), ("PAYEE_ID", some "p1"), ("USER_ID", some "u1"),
              ("X", some "b")],
             [("GRN", some "g1"), ("PAYEE_ID", some "p2"), ("USER_ID", some "u1")]],
        r = projectUser x := by
  have h : build_outputs
      [[("GRN", some "g1")]]
      [[("PAYEE_ID", some "p1"), ("NAME", none), ("PHONE", some "555")],
       [("PAYEE_ID", some "p1"), ("NAME", some "Jane")]]
      [[("GRN", some "g1"), ("PAYEE_ID", some "p1"), ("USER_ID", some "u1"), ("X", some "a")],
       [("GRN", some "g1"), ("PAYEE_ID", some "p1"), ("USER_ID", some "u1"), ("X", some "b")],
       [("GRN", some "g1"), ("PAYEE_ID", some "p2"), ("USER_ID", some "u1")]] =
    Except.ok
      (⟨["GRN"], [[("GRN", some "g1")]]⟩,
       ⟨["PAYEE_ID", "NAME", "PHONE"],
        [[("PAYEE_ID", some "p1"), ("NAME", some "Jane"), ("PHONE", some "555")]]⟩,
       ⟨["USER_ID", "GRN", "PAYEE_ID", "X"],
        [[("USER_ID", some "u1"), ("GRN", some "g1"), ("PAYEE_ID", some "p1"),
          ("X", some "a")]]⟩,
       ⟨["GRN", "PAYEE_ID", "USER_ID"],
        [[("GRN", some "g1"), ("PAYEE_ID", some "p1"), ("USER_ID", some "u1")],
         [("GRN", some "g1"), ("PAYEE_ID", some "p2"), ("USER_ID", some "u1")]]⟩) := rfl
  obtain ⟨_, _, _, hlen, hproj⟩ := mapping_table_projection _ _ _ _ _ _ _ h
  exact ⟨h, hlen, hproj⟩

/-- C7: when the byte stream is not well-formed XML the parse step fails;
the pipeline surfaces the failure immediately as the parse error carrying
the underlying parser message, and no output tables are produced — the
normalizer is never reached. -/
theorem malformed_xml_rejected (msg : String) :
    processUpload (Except.error msg) = Except.error ("Could not parse XML: " ++ msg) := rfl

/-- C8 counterexample: a partnership with no GRN child still produces a
GRN row, but that row does not contain a GRN field at all (the field is
absent rather than present-with-null, contradicting the claim that every
GRN row contains a GRN field). -/
theorem grn_row_missing_identifier_counterexample :
    (parse_xml ⟨"root", none, [⟨"partnership", none, [⟨"NAME", some "x", []⟩]⟩]⟩).1 =
      [[("NAME", some "x")]] ∧
    hasField [("NAME", some "x")] "GRN" = false :=
  ⟨rfl, rfl⟩

/-- C8 amended: every Payee row contains a GRN field and every User row
contains GRN and PAYEE_ID fields (the inherited foreign keys, null when
the ancestor identifier is absent, but always present); the entity's own
natural-identifier field (GRN / PAYEE_ID / USER_ID) is present in its row
when a matching selected leaf child exists (one whose upper-cased tag is
the identifier), and the row is still emitted — but without that field —
when no such child exists. -/
theorem identifier_fields_presence :
    (∀ (g : Val) (payee : Elem), hasField (payeeRowOf g payee) "GRN" = true) ∧
    (∀ (g p0 : Val) (user : Elem),
      hasField (userRowOf g p0 user) "GRN" = true ∧
      hasField (userRowOf g p0 user) "PAYEE_ID" = true) ∧
    (∀ (part : Elem) (pre : List Elem) (c : Elem),
      contributorsTo grnQ "GRN" part.children = pre ++ [c] →
      hasField (grnRowOf part) "GRN" = true) ∧
    (∀ (g : Val) (payee : Elem) (pre : List Elem) (c : Elem),
      contributorsTo payeeQ "PAYEE_ID" payee.children = pre ++ [c] →
      hasField (payeeRowOf g payee) "PAYEE_ID" = true) ∧
    (∀ (g p0 : Val) (user : Elem) (pre : List Elem) (c : Elem),
      contributorsTo userQ "USER_ID" user.children = pre ++ [c] →
      hasField (userRowOf g p0 user) "USER_ID" = true) := by
  refine ⟨?_, ?_, ?_, ?_, ?_⟩
  · intro g payee
    exact setFold_hasField_mono _ _ _ _ (by simp [hasField, getField])
  · intro g p0 user
    constructor <;>
    · simp only [userRowOf]
      apply hasField_setField_mono
      apply hasField_setField_mono
      rw [userFold_row]
      exact setFold_hasField_mono _ _ _ _ (by simp [hasField, getField])
  · intro part pre c hcon
    have hlast := setFold_getField_last grnQ "GRN" part.children [] pre c hcon
    simp [grnRowOf, hasField, hlast]
  · intro g payee pre c hcon
    have hlast := setFold_getField_last payeeQ "PAYEE_ID" payee.children [("GRN", g)] pre c hcon
    simp [payeeRowOf, hasField, hlast]
  · intro g p0 user pre c hcon
    simp only [userRowOf]
    apply hasField_setField_mono
    apply hasField_setField_mono
    rw [userFold_row]
    have hlast := setFold_getField_last userQ "USER_ID" user.children
      [("GRN", g), ("PAYEE_ID", p0)] pre c hcon
    simp [hasField, hlast]

/-- Witness for C8 amended at concrete elements with identifier children
present. -/
theorem identifier_fields_presence_witness :
    hasField (payeeRowOf (some "g1") ⟨"payee", none, [⟨"PAYEE_ID", some "p1", []⟩]⟩) "GRN" =
      true ∧
    hasField (userRowOf (some "g1") (some "p1")
      ⟨"user", none, [⟨"USER_ID", some "u1", []⟩]⟩) "GRN" = true ∧
    hasField (grnRowOf
      ⟨"partnership", none, [⟨"GRN", some " g1 ", []⟩, ⟨"NAME", some "x", []⟩]⟩) "GRN" = true ∧
    hasField (payeeRowOf (some "g1") ⟨"payee", none, [⟨"PAYEE_ID", some "p1", []⟩]⟩)
      "PAYEE_ID" = true ∧
    hasField (userRowOf (some "g1") (some "p1")
      ⟨"user", none, [⟨"USER_ID", some "u1", []⟩]⟩) "USER_ID" = true := by
  refine ⟨?_, ?_, ?_, ?_, ?_⟩
  · exact identifier_fields_presence.1 (some "g1") _
  · exact (identifier_fields_presence.2.1 (some "g1") (some "p1") _).1
  · exact identifier_fields_presence.2.2.1 _ [] _ rfl
  · exact identifier_fields_presence.2.2.2.1 (some "g1") _ [] _ rfl
  · exact identifier_fields_presence.2.2.2.2 (some "g1") (some "p1") _ [] _ rfl

/-- C9: normalization is deterministic and idempotent — it is a pure
function of the three raw row collections, so two runs on the same triple
produce identical output tables, and the whole pipeline is likewise a pure
function of its parsed input. -/
theorem normalize_deterministic (g p u : List Row) :
    build_outputs g p u = build_outputs g p u ∧
      ∀ x : Except String Elem, processUpload x = processUpload x :=
  ⟨rfl, fun _ => rfl⟩

/-- C10: when a payee element has a direct leaf child whose tag maps to
GRN (in particular a child tagged exactly GRN), or a user element has such
a child for GRN or PAYEE_ID, the inherited ancestor foreign-key value in
the extracted row is overwritten by that child's own trimmed text (the
last such child when several contribute), regardless of the ancestor
identifier. -/
theorem child_overwrites_inherited_fk :
    (∀ (g : Val) (payee : Elem) (pre : List Elem) (c : Elem),
        contributorsTo payeeQ "GRN" payee.children = pre ++ [c] →
        getField (payeeRowOf g payee) "GRN" = some (some (textOrEmpty c))) ∧
    (∀ (g p0 : Val) (user : Elem) (pre : List Elem) (c : Elem),
        contributorsTo userQ "GRN" user.children = pre ++ [c] →
        getField (userRowOf g p0 user) "GRN" = some (some (textOrEmpty c))) ∧
    (∀ (g p0 : Val) (user : Elem) (pre : List Elem) (c : Elem),
        contributorsTo userQ "PAYEE_ID" user.children = pre ++ [c] →
        getField (userRowOf g p0 user) "PAYEE_ID" = some (some (textOrEmpty c))) := by
  refine ⟨?_, ?_, ?_⟩
  · intro g payee pre c hcon
    exact setFold_getField_last payeeQ "GRN" payee.children [("GRN", g)] pre c hcon
  · intro g p0 user pre c hcon
    simp only [userRowOf]
    rw [getField_setField_ne _ _ _ _ (by decide), getField_setField_ne _ _ _ _ (by decide),
      userFold_row]
    exact setFold_getField_last userQ "GRN" user.children _ pre c hcon
  · intro g p0 user pre c hcon
    simp only [userRowOf]
    rw [getField_setField_ne _ _ _ _ (by decide), getField_setField_ne _ _ _ _ (by decide),
      userFold_row]
    exact setFold_getField_last userQ "PAYEE_ID" user.children _ pre c hcon

/-- Witness for C10 at concrete elements: a payee with its own GRN leaf
child (text " G2 ") gets GRN G2 instead of the inherited g1, and a user
with its own GRN and PAYEE_ID leaf children gets those values instead of
the inherited ones. -/
theorem child_overwrites_inherited_fk_witness :
    getField (payeeRowOf (some "g1")
        ⟨"payee", none, [⟨"GRN", some " G2 ", []⟩, ⟨"PAYEE_ID", some "p1", []⟩]⟩) "GRN" =
      some (some "G2") ∧
    getField (userRowOf (some "g1") (some "p1")
        ⟨"user", none, [⟨"GRN", some "G3", []⟩, ⟨"PAYEE_ID", some "P3", []⟩]⟩) "GRN" =
      some (some "G3") ∧
    getField (userRowOf (some "g1") (some "p1")
        ⟨"user", none, [⟨"GRN", some "G3", []⟩, ⟨"PAYEE_ID", some "P3", []⟩]⟩) "PAYEE_ID" =
      some (some "P3") := by
  refine ⟨?_, ?_, ?_⟩
  · exact child_overwrites_inherited_fk.1 (some "g1")
      ⟨"payee", none, [⟨"GRN", some " G2 ", []⟩, ⟨"PAYEE_ID", some "p1", []⟩]⟩ []
      ⟨"GRN", some " G2 ", []⟩ rfl
  · exact child_overwrites_inherited_fk.2.1 (some "g1") (some "p1")
      ⟨"user", none, [⟨"GRN", some "G3", []⟩, ⟨"PAYEE_ID", some "P3", []⟩]⟩ []
      ⟨"GRN", some "G3", []⟩ rfl
  · exact child_overwrites_inherited_fk.2.2 (some "g1") (some "p1")
      ⟨"user", none, [⟨"GRN", some "G3", []⟩, ⟨"PAYEE_ID", some "P3", []⟩]⟩ []
      ⟨"PAYEE_ID", some "P3", []⟩ rfl

end NGR
